import Mathlib

/- Verification development for the agent-loop core of the repository.
   The Python sources are embedded shallowly: conversation memory, entity
   memory, the agent loops of simplest-client.py, simplest-client-stocks.py,
   simple-client.py and simple-client-memory.py, the retry wrappers of
   simplest-client-stocks.py, and the repeat guard described by the spec. -/

/-- Content block of a provider response (an element of `response.content`). -/
inductive RespBlock where
  | text (t : String)
  | toolUse (id name : String) (input : List (String × String))
  | other (ty : String)
deriving DecidableEq

/-- Content block stored inside a conversation turn. -/
inductive Block where
  | text (t : String)
  | toolUse (id name : String) (input : List (String × String))
  | toolResult (toolUseId : String) (content : String)
deriving DecidableEq

/-- Content of one stored message: either a plain string (as in
`add_user_message`) or a list of blocks. -/
inductive MsgContent where
  | text (s : String)
  | blocks (bs : List Block)
deriving DecidableEq

/-- One conversation turn, a Python dict `{"role": ..., "content": ...}`. -/
structure Turn where
  role : String
  content : MsgContent
deriving DecidableEq

/-- Provider response: content blocks plus a stop reason. -/
structure SResponse where
  content : List RespBlock
  stopReason : String
deriving DecidableEq

/-- Lookup in an insertion-ordered association list, modelling a Python dict
read (`d[k]` or `d.get(k)`). -/
def lookupA {α : Type} : List (String × α) → String → Option α
  | [], _ => none
  | (k1, v1) :: rest, k => if k1 = k then some v1 else lookupA rest k

/-- Python dict write `d[k] = v`: the value is replaced in place when the key
exists (keeping its position), otherwise the pair is appended at the end. -/
def updateA {α : Type} : List (String × α) → String → α → List (String × α)
  | [], k, v => [(k, v)]
  | (k1, v1) :: rest, k, v =>
    if k1 = k then (k1, v) :: rest else (k1, v1) :: updateA rest k v

/-- Apply `f` to the value stored under `k`, modelling in-place mutation of a
nested Python dict; does nothing when the key is absent. -/
def modifyA {α : Type} : List (String × α) → String → (α → α) → List (String × α)
  | [], _, _ => []
  | (k1, v1) :: rest, k, f =>
    if k1 = k then (k1, f v1) :: rest else (k1, v1) :: modifyA rest k f

/-- A Python value stored in an entity record: a string, a list, or a dict.
These are the shapes `EntityMemory` in simple-client-memory.py actually
stores (strings for attributes, lists for `notes` and `locations`, dicts for
location records). -/
inductive PyVal where
  | str (s : String)
  | list (l : List PyVal)
  | dict (d : List (String × PyVal))

/-- An entity record of `EntityMemory` (simple-client-memory.py): one Python
dict such as `{"id": ..., "first_name": ..., "notes": [...]}`. -/
abbrev Entity := List (String × PyVal)

/-- The `EntityMemory.entities` dict of simple-client-memory.py. -/
abbrev EStore := List (String × Entity)

/-- `EntityMemory.upsert` (simple-client-memory.py lines 50-54): create the
record as `{"id": entity_id}` if absent, then set `entities[entity_id][key]`. -/
def ensureE (st : EStore) (entityId : String) : EStore :=
  if (lookupA st entityId).isSome then st
  else st ++ [(entityId, [("id", PyVal.str entityId)])]

/-- `EntityMemory.upsert` body after the membership check. -/
def upsert (st : EStore) (entityId key : String) (value : PyVal) : EStore :=
  modifyA (ensureE st entityId) entityId (fun ent => updateA ent key value)

/-- `EntityMemory.add_note` (lines 56-61): create `{"id": e, "notes": [note]}`
if absent, else `setdefault("notes", []).append(note)`.  Appending to a
non-list `notes` value would raise `AttributeError` in Python; that branch is
totalised as a no-op here (it is unreachable through `add_note` itself). -/
def addNote (st : EStore) (entityId note : String) : EStore :=
  match lookupA st entityId with
  | none =>
    st ++ [(entityId, [("id", PyVal.str entityId), ("notes", PyVal.list [PyVal.str note])])]
  | some _ =>
    modifyA st entityId (fun ent =>
      match lookupA ent "notes" with
      | some (PyVal.list ns) => updateA ent "notes" (PyVal.list (ns ++ [PyVal.str note]))
      | some _ => ent
      | none => updateA ent "notes" (PyVal.list [PyVal.str note]))

/-- `EntityMemory.hydrate_from_data` (lines 45-48):
`for record in data: self.entities[record["id"]] = record`.  A record with no
string `"id"` field makes Python raise `KeyError` (or use a non-string dict
key, outside this model); both are modelled as `none`. -/
def hydrateFromData (st : EStore) : List Entity → Option EStore
  | [] => some st
  | record :: rest =>
    match lookupA record "id" with
    | some (PyVal.str i) => hydrateFromData (updateA st i record) rest
    | _ => none

mutual

/-- Python `repr` of a stored value, used by `str()` on lists and dicts.
Escape details of `repr` are irrelevant to every claim below; only string
attribute values are ever rendered by the theorems. -/
def pyRepr : PyVal → String
  | PyVal.str s => "'" ++ s ++ "'"
  | PyVal.list l => "[" ++ pyReprList l ++ "]"
  | PyVal.dict d => "\x7b" ++ pyReprDict d ++ "\x7d"

def pyReprList : List PyVal → String
  | [] => ""
  | [v] => pyRepr v
  | v :: rest => pyRepr v ++ ", " ++ pyReprList rest

def pyReprDict : List (String × PyVal) → String
  | [] => ""
  | [(k, v)] => "'" ++ k ++ "': " ++ pyRepr v
  | (k, v) :: rest => "'" ++ k ++ "': " ++ pyRepr v ++ ", " ++ pyReprDict rest

end

/-- Python `str()` of a stored value, as used by the f-strings in
`as_prompt_context`. -/
def pyStr : PyVal → String
  | PyVal.str s => s
  | v => pyRepr v

/-- Python truthiness of a stored value (`if entity.get(key):`). -/
def pyTruthy : PyVal → Bool
  | PyVal.str s => s ≠ ""
  | PyVal.list l => !l.isEmpty
  | PyVal.dict d => !d.isEmpty

/-- The fixed key list iterated by `as_prompt_context` (line 78). -/
def renderKeys : List String := ["id", "first_name", "last_name", "department", "job_title"]

/-- One iteration of the key loop of `as_prompt_context` (lines 78-80):
append `f"{key}: {entity[key]}"` when `entity.get(key)` is truthy. -/
def partFor (ent : Entity) (k : String) : List String :=
  match lookupA ent k with
  | some v => if pyTruthy v then [k ++ ": " ++ pyStr v] else []
  | none => []

/-- The `locations` branch of `as_prompt_context` (lines 82-85).  Python
indexes `entity["locations"][0]` and calls `.get("city")`; shapes on which
Python would raise (non-list `locations`, non-dict first element) are
totalised to no part. -/
def locationPart (ent : Entity) : List String :=
  match lookupA ent "locations" with
  | some v =>
    if pyTruthy v then
      match v with
      | PyVal.list (PyVal.dict d :: _) =>
        match lookupA d "city" with
        | some c => if pyTruthy c then ["city: " ++ pyStr c] else []
        | none => []
      | _ => []
    else []
  | none => []

/-- The `notes` branch of `as_prompt_context` (lines 87-88):
`", ".join(entity["notes"])`.  Joining non-string notes would raise in
Python; elements are totalised through `pyStr`. -/
def notesPart (ent : Entity) : List String :=
  match lookupA ent "notes" with
  | some v =>
    if pyTruthy v then
      match v with
      | PyVal.list ns => ["notes: " ++ String.intercalate ", " (ns.map pyStr)]
      | _ => []
    else []
  | none => []

/-- The filter test of `as_prompt_context` (line 74):
`if filter_by_name and entity.get("first_name", "").lower() != filter_by_name.lower(): continue`.
An empty filter string is falsy in Python, so it disables filtering. -/
def filterSkip (filterByName : Option String) (ent : Entity) : Bool :=
  match filterByName with
  | none => false
  | some f =>
    if f = "" then false
    else
      (match lookupA ent "first_name" with
       | some (PyVal.str s) => s
       | some v => pyStr v
       | none => "").toLower ≠ f.toLower

/-- The per-entity body of `as_prompt_context` (lines 73-89): `none` when the
filter skips the entity, otherwise the line `", ".join(parts)`. -/
def renderEntity (filterByName : Option String) (ent : Entity) : Option String :=
  if filterSkip filterByName ent then none
  else some (String.intercalate ", "
    ((renderKeys.map (partFor ent)).flatten ++ locationPart ent ++ notesPart ent))

/-- `EntityMemory.as_prompt_context` (simple-client-memory.py lines 67-90):
a header line followed by one line per non-skipped entity, joined by
newlines. -/
def asPromptContext (st : EStore) (filterByName : Option String) : String :=
  String.intercalate "\n"
    ("Known entities (use id or notes for disambiguation):" ::
      (st.map (fun p => renderEntity filterByName p.2)).reduceOption)

/-- The entity-context injection of `chat_with_memory`
(simple-client-memory.py lines 170-176): when the rendered context string is
truthy (non-empty), a synthetic user turn is inserted at position 0. -/
def assembleMessages (msgs : List Turn) (st : EStore) : List Turn :=
  if asPromptContext st none ≠ "" then
    ⟨"user", MsgContent.text (asPromptContext st none)⟩ :: msgs
  else msgs

/-- The `EntityMemory.entities` dict of simplest-client-stocks.py
(`Dict[str, str]`, written by `update(key, value)`). -/
abbrev SEStore := List (String × String)

/-- `EntityMemory.update` (simplest-client-stocks.py lines 54-55). -/
def sUpdate (st : SEStore) (key value : String) : SEStore :=
  updateA st key value

/-- `EntityMemory.to_text` (simplest-client-stocks.py lines 62-63):
`"\n".join([f"{k}: {v}" for k, v in self.entities.items()])`. -/
def sToText (st : SEStore) : String :=
  String.intercalate "\n" (st.map (fun p => p.1 ++ ": " ++ p.2))

/-- The reserved marker `"ENTITY:"` as characters. -/
def markerChars : List Char := ['E', 'N', 'T', 'I', 'T', 'Y', ':']

/-- Python `line.startswith("ENTITY:")`. -/
def startsWithMarker (l : List Char) : Bool := l.take 7 == markerChars

/-- Python `line.replace("ENTITY:", "")`: every occurrence of the marker is
removed, scanning left to right without overlap — not only a leading one. -/
def removeMarker : List Char → List Char
  | 'E' :: 'N' :: 'T' :: 'I' :: 'T' :: 'Y' :: ':' :: rest => removeMarker rest
  | c :: cs => c :: removeMarker cs
  | [] => []

/-- Whether the marker occurs anywhere in the line. -/
def containsMarker : List Char → Bool
  | 'E' :: 'N' :: 'T' :: 'I' :: 'T' :: 'Y' :: ':' :: _ => true
  | _ :: cs => containsMarker cs
  | [] => false

/-- Python `s.split("=", 1)` when it succeeds in unpacking to two names:
`some (before, after)` for the first `'='`, `none` when there is no `'='`
(in which case the source's tuple unpacking raises `ValueError`, caught and
turned into `continue`). -/
def splitFirstEq : List Char → Option (List Char × List Char)
  | [] => none
  | c :: cs =>
    if c = '=' then some ([], cs)
    else match splitFirstEq cs with
      | some p => some (c :: p.1, p.2)
      | none => none

/-- Python whitespace for `str.strip()` (ASCII subset). -/
def isPySpace (c : Char) : Bool :=
  c == ' ' || c == '\t' || c == '\n' || c == '\r' || c == '\x0b' || c == '\x0c'

/-- Python `s.strip()`. -/
def pyStrip (l : List Char) : List Char :=
  ((l.dropWhile isPySpace).reverse.dropWhile isPySpace).reverse

/-- Pack characters back into a string. -/
def strOf (l : List Char) : String := String.mk l

/-- One line of the entity-marker scan of simplest-client-stocks.py
(lines 184-190): lines starting with the marker have every `"ENTITY:"`
occurrence removed, are split at the first `'='`, and both halves are
stripped and stored; a missing `'='` raises `ValueError`, which the source
catches and skips. -/
def scanLine (st : SEStore) (line : List Char) : SEStore :=
  if startsWithMarker line then
    match splitFirstEq (removeMarker line) with
    | some p => sUpdate st (strOf (pyStrip p.1)) (strOf (pyStrip p.2))
    | none => st
  else st

/-- Python `text.splitlines()` (newline-separated; a trailing newline adds no
empty final line). Helper threading the current line accumulator. -/
def splitLinesGo (acc : List Char) : List Char → List (List Char)
  | [] => [acc]
  | c :: cs =>
    if c = '\n' then acc :: (if cs.isEmpty then [] else splitLinesGo [] cs)
    else splitLinesGo (acc ++ [c]) cs

/-- Python `text.splitlines()`. -/
def splitLines (l : List Char) : List (List Char) :=
  if l.isEmpty then [] else splitLinesGo [] l

/-- The whole scan of one assistant text block (lines 183-190). -/
def scanText (st : SEStore) (text : String) : SEStore :=
  (splitLines text.data).foldl scanLine st

/-- Parser written from the claim's words, for comparison with `scanLine`:
strip the reserved marker once, as a prefix only, then split what remains at
the first `'='` and trim both halves. -/
def claimParseLine (st : SEStore) (line : List Char) : SEStore :=
  if startsWithMarker line then
    match splitFirstEq (line.drop 7) with
    | some p => sUpdate st (strOf (pyStrip p.1)) (strOf (pyStrip p.2))
    | none => st
  else st

/-- Heap model for `ConversationMemory` (simple-client-memory.py lines
10-37): cell 0 of the heap is the Python list object `self.messages`; each
`get_messages()` call allocates a fresh cell holding `self.messages.copy()`
and returns its reference.  This makes the aliasing distinction between
returning a copy and returning `self.messages` itself expressible. -/
structure ConvMem where
  heap : List (List Turn)
deriving DecidableEq

/-- The store's own list object (`self.messages`). -/
def cell0 (m : ConvMem) : List Turn := m.heap.headD []

/-- Mutate `self.messages` in place. -/
def writeCell0 (m : ConvMem) (f : List Turn → List Turn) : ConvMem :=
  ⟨m.heap.set 0 (f (cell0 m))⟩

/-- `add_user_message` (lines 16-17). -/
def addUserMessage (m : ConvMem) (content : String) : ConvMem :=
  writeCell0 m (fun ms => ms ++ [⟨"user", MsgContent.text content⟩])

/-- `add_assistant_message` (lines 19-20). -/
def addAssistantMessage (m : ConvMem) (content : List Block) : ConvMem :=
  writeCell0 m (fun ms => ms ++ [⟨"assistant", MsgContent.blocks content⟩])

/-- `add_tool_result` (lines 22-30). -/
def addToolResult (m : ConvMem) (toolId result : String) : ConvMem :=
  writeCell0 m (fun ms =>
    ms ++ [⟨"user", MsgContent.blocks [Block.toolResult toolId result]⟩])

/-- `get_messages` (lines 35-37): `return self.messages.copy()` — the copy is
a fresh cell; the reference to it is returned. -/
def getMessages (m : ConvMem) : Nat × ConvMem :=
  (m.heap.length, ⟨m.heap ++ [cell0 m]⟩)

/-- Dereference a heap cell. -/
def readRef (m : ConvMem) (r : Nat) : Option (List Turn) := m.heap[r]?

/-- The three append operations of the claim. -/
inductive ConvOp where
  | user (content : String)
  | assistant (content : List Block)
  | toolResult (toolId result : String)
deriving DecidableEq

def applyOp (m : ConvMem) : ConvOp → ConvMem
  | ConvOp.user c => addUserMessage m c
  | ConvOp.assistant c => addAssistantMessage m c
  | ConvOp.toolResult i r => addToolResult m i r

def applyOps (ops : List ConvOp) (m : ConvMem) : ConvMem := ops.foldl applyOp m

/-- The per-block processing of simple-client.py run_agent (lines 50-94),
threading the `messages` list and the `tool_used` flag.  `exec` is
`client.call_tool`: `ok` carries `result.data`, `error` the raised
exception's text.  On the error path the source prints and `continue`s —
nothing is appended (lines 80-82). -/
def processBlocksSC (exec : String → List (String × String) → Except String String) :
    List RespBlock → List Turn → Bool → List Turn × Bool
  | [], msgs, toolUsed => (msgs, toolUsed)
  | RespBlock.toolUse id name input :: bs, msgs, _ =>
    let msgs1 := msgs ++ [⟨"assistant", MsgContent.blocks [Block.toolUse id name input]⟩]
    match exec name input with
    | Except.ok data =>
      processBlocksSC exec bs
        (msgs1 ++ [⟨"user", MsgContent.blocks [Block.toolResult id data]⟩]) true
    | Except.error _ => processBlocksSC exec bs msgs1 true
  | RespBlock.text t :: bs, msgs, toolUsed =>
    processBlocksSC exec bs (msgs ++ [⟨"assistant", MsgContent.blocks [Block.text t]⟩]) toolUsed
  | RespBlock.other _ :: bs, msgs, toolUsed => processBlocksSC exec bs msgs toolUsed

/-- Whether a stored turn carries a `tool_result` block for the given id. -/
def isToolResultFor (id : String) (t : Turn) : Bool :=
  match t.content with
  | MsgContent.blocks bs =>
    bs.any fun b =>
      match b with
      | Block.toolResult i _ => i == id
      | _ => false
  | _ => false

/-- Whether a stored turn carries a `tool_use` block with the given id. -/
def isToolUseFor (id : String) (t : Turn) : Bool :=
  match t.content with
  | MsgContent.blocks bs =>
    bs.any fun b =>
      match b with
      | Block.toolUse i _ _ => i == id
      | _ => false
  | _ => false

def countToolResultsFor (id : String) (msgs : List Turn) : Nat :=
  msgs.countP fun t => isToolResultFor id t

def countToolUsesFor (id : String) (msgs : List Turn) : Nat :=
  msgs.countP fun t => isToolUseFor id t

/-- `used_tool` after a response's blocks are processed: set exactly when a
`tool_use` block occurs. -/
def respUsedTool (r : SResponse) : Bool :=
  r.content.any fun b =>
    match b with
    | RespBlock.toolUse _ _ _ => true
    | _ => false

/-- The agent loop of simplest-client-stocks.py run_agent (lines 127-193) —
simplest-client.py lines 44-101 has the identical control flow.  The source
initialises `iteration = 0` and tests `while iteration < max_iterations`, but
never increments `iteration`, so it is threaded here unchanged.  Block
processing (lines 157-190) mutates conversation and entity memory only;
control flow depends just on the stop reason and the `used_tool` flag, which
this model keeps.  Returns the number of provider calls made and `some`
exit ("break" for line 192-193, "loop_exit" for a false `while` test), or
`none` when the response script runs out with the loop still live. -/
def runStocksLoop (maxIterations : Nat) : List SResponse → Nat → Nat × Option String
  | [], _ => (0, none)
  | r :: rest, iteration =>
    if iteration < maxIterations then
      if r.stopReason = "end_turn" ∨ respUsedTool r = false then (1, some "break")
      else
        let p := runStocksLoop maxIterations rest iteration
        (p.1 + 1, p.2)
    else (0, some "loop_exit")

/-- Line 160 of simple-client-memory.py: `max_iterations = 30` — the
configured parameter of `chat_with_memory` (default 25) is overwritten
before the loop ever tests it. -/
def memoryLoopMax (maxIterationsParam : Nat) : Nat := 30

/-- The agent loop of simple-client-memory.py chat_with_memory (lines
151-259).  `iterations` increments at the top of each pass (line 167);
stop reason `"tool_use"` continues, `"end_turn"` collects user input and
ends on `"end conversation"` (after strip/lower), anything else falls
through to the `while` test.  Block processing mutates memory only. -/
def runMemoryLoop (maxIterationsParam : Nat) (userInput : Nat → String) :
    List SResponse → Nat → Nat × Option String
  | [], _ => (0, none)
  | r :: rest, iterations =>
    if iterations < memoryLoopMax maxIterationsParam then
      let its := iterations + 1
      if r.stopReason = "tool_use" then
        let p := runMemoryLoop maxIterationsParam userInput rest its
        (p.1 + 1, p.2)
      else if r.stopReason = "end_turn" then
        if (strOf (pyStrip (userInput its).data)).toLower = "end conversation" then
          (1, some "user_ended")
        else
          let p := runMemoryLoop maxIterationsParam userInput rest its
          (p.1 + 1, p.2)
      else
        let p := runMemoryLoop maxIterationsParam userInput rest its
        (p.1 + 1, p.2)
    else (0, some "loop_exit")

/-- A Python exception raised by a provider or tool call.  `transient` is the
failure's class in the spec's taxonomy; the source's bare `except Exception`
never looks at it. -/
structure PyFailure where
  msg : String
  transient : Bool
deriving DecidableEq

/-- Result of `call_with_retries`: a provider response, or the
`RuntimeError` raised after exhaustion (line 212). -/
inductive RetryResult (α : Type) where
  | ok (a : α)
  | runtimeError (msg : String)
deriving DecidableEq

/-- `call_with_retries` (simplest-client-stocks.py lines 201-212), attempts
indexed from `a` with `r` of the `range(max_retries)` iterations left.
`outcomes a` is the provider call's behaviour on attempt `a`; `jitter a`
stands for that attempt's `random.random()` draw; `base_delay = 1`.  Returns
the result, the number of attempts made, and the backoff waits slept. -/
def callWithRetriesGo {α : Type} (outcomes : Nat → Except PyFailure α) (jitter : Nat → ℚ) :
    Nat → Nat → RetryResult α × Nat × List ℚ
  | _, 0 => (RetryResult.runtimeError "Claude API call failed after max retries", 0, [])
  | a, r + 1 =>
    match outcomes a with
    | Except.ok x => (RetryResult.ok x, 1, [])
    | Except.error _ =>
      let w := (1 : ℚ) * 2 ^ a + jitter a
      let p := callWithRetriesGo outcomes jitter (a + 1) r
      (p.1, p.2.1 + 1, w :: p.2.2)

/-- `call_with_retries` with its `max_retries = 5`. -/
def callWithRetries {α : Type} (outcomes : Nat → Except PyFailure α) (jitter : Nat → ℚ) :
    RetryResult α × Nat × List ℚ :=
  callWithRetriesGo outcomes jitter 0 5

/-- `run_tool_with_retries` (lines 214-222): same shape with
`base_delay = 0.5`, and after exhaustion it returns the plain string
`"error"` as an ordinary value (line 222) instead of raising. -/
def runToolWithRetriesGo (outcomes : Nat → Except PyFailure String) (jitter : Nat → ℚ) :
    Nat → Nat → String × Nat × List ℚ
  | _, 0 => ("error", 0, [])
  | a, r + 1 =>
    match outcomes a with
    | Except.ok x => (x, 1, [])
    | Except.error _ =>
      let w := (1 / 2 : ℚ) * 2 ^ a + jitter a
      let p := runToolWithRetriesGo outcomes jitter (a + 1) r
      (p.1, p.2.1 + 1, w :: p.2.2)

/-- `run_tool_with_retries` with its default `max_retries = 3`. -/
def runToolWithRetries (outcomes : Nat → Except PyFailure String) (jitter : Nat → ℚ) :
    String × Nat × List ℚ :=
  runToolWithRetriesGo outcomes jitter 0 3

/-- Termination signals of the spec's §4.4 used by the repeat-guard model. -/
inductive TermReason where
  | repeatedCallDetected
  | naturalCompletion
deriving DecidableEq

/-- Lexicographic order on character lists, for key sorting. -/
def charsLe : List Char → List Char → Bool
  | [], _ => true
  | _ :: _, [] => false
  | a :: as, b :: bs => if a = b then charsLe as bs else decide (a < b)

def keyLe (p q : String × String) : Bool := charsLe p.1.data q.1.data

def insertSorted (p : String × String) : List (String × String) → List (String × String)
  | [] => [p]
  | q :: qs => if keyLe p q then p :: q :: qs else q :: insertSorted p qs

/-- Key-sort of an argument map. -/
def sortPairs : List (String × String) → List (String × String)
  | [] => []
  | p :: ps => insertSorted p (sortPairs ps)

def serializePairs (l : List (String × String)) : String :=
  String.intercalate "," (l.map fun p => p.1 ++ "=" ++ p.2)

/-- Modelled from the spec: `ToolCallKey` of §3 — the tool name plus the
canonical key-sorted serialization of the input map.  The repeat guard is
missing from src/: medium-client.py line 54 only declares its per-session
counter (`global_called_tools`), so the guard here follows §3, §4.3 and
§4.5 of the spec. -/
def canonicalKey (name : String) (input : List (String × String)) : String :=
  name ++ "|" ++ serializePairs (sortPairs input)

/-- Modelled from the spec: the per-session call counter (§4.3). -/
abbrev GuardState := List (String × Nat)

/-- Modelled from the spec: increment the per-key counter and return the new
count. -/
def bumpCount (gs : GuardState) (k : String) : Nat × GuardState :=
  match lookupA gs k with
  | some c => (c + 1, updateA gs k (c + 1))
  | none => (1, updateA gs k 1)

/-- Modelled from the spec (§4.3, §4.5 step 3): process a response's blocks;
each `tool_use` bumps its key's counter, and once the count exceeds the
threshold the dispatch is skipped, further block processing stops, and the
trip flag is set.  Returns (dispatched tool calls, new counters, tripped). -/
def processGuardBlocks (threshold : Nat) : List RespBlock → GuardState → Nat × GuardState × Bool
  | [], gs => (0, gs, false)
  | RespBlock.toolUse _ name input :: bs, gs =>
    let key := canonicalKey name input
    let b := bumpCount gs key
    if threshold < b.1 then (0, b.2, true)
    else
      let p := processGuardBlocks threshold bs b.2
      (p.1 + 1, p.2.1, p.2.2)
  | _ :: bs, gs => processGuardBlocks threshold bs gs

/-- Modelled from the spec (§4.5 step 5): the loop terminates with
`REPEATED_CALL_DETECTED` on a guard trip, with `NATURAL_COMPLETION` on a
terminal stop without tool use, and otherwise continues.  Returns the number
of provider calls made, the number of dispatched tool executions, and the
termination reason (`none` when the response script runs out first). -/
def runGuardLoop (threshold : Nat) : List SResponse → GuardState → Nat × Nat × Option TermReason
  | [], _ => (0, 0, none)
  | r :: rest, gs =>
    let pb := processGuardBlocks threshold r.content gs
    if pb.2.2 then (1, pb.1, some TermReason.repeatedCallDetected)
    else if r.stopReason = "end_turn" ∧ pb.1 = 0 then (1, pb.1, some TermReason.naturalCompletion)
    else
      let p := runGuardLoop threshold rest pb.2.1
      (p.1 + 1, pb.1 + p.2.1, p.2.2)

/-- A provider script that issues the same logical call every iteration,
with possibly differently ordered argument maps. -/
def mkGuardScript (name : String) (inputs : List (List (String × String))) : List SResponse :=
  inputs.map fun inp => ⟨[RespBlock.toolUse "toolu_1" name inp], "tool_use"⟩

/-- Tool executor that always raises (`client.call_tool` failing). -/
def boomExec : String → List (String × String) → Except String String :=
  fun _ _ => Except.error "boom"

/-- A response content whose only tool call fails. -/
def c3Resp : List RespBlock :=
  [RespBlock.toolUse "toolu_01" "get_weather_from_city" [("city", "Boston")]]

/-- A failing tool call followed by a text block. -/
def c4Resp : List RespBlock :=
  [RespBlock.toolUse "toolu_01" "get_weather_from_city" [("city", "Boston")],
   RespBlock.text "thanks"]

/-- Three consecutive provider responses that each use a tool and stop with
`"tool_use"`. -/
def c2Script : List SResponse :=
  List.replicate 3
    ⟨[RespBlock.toolUse "toolu_01" "get_stock_price_today" [("ticker_name", "aapl")]], "tool_use"⟩

/-- A conversation store holding one seeded user turn. -/
def c6Mem : ConvMem := ⟨[[⟨"user", MsgContent.text "hi"⟩]]⟩

/-- Appends performed after a `get_messages()` call. -/
def c6Ops : List ConvOp :=
  [ConvOp.user "next question", ConvOp.assistant [Block.text "answer"],
   ConvOp.toolResult "toolu_02" "55F"]

/-- Provider behaviour: a non-transient failure on the first attempt, then
success. -/
def fatalThenOk : Nat → Except PyFailure String :=
  fun a => if a = 0 then Except.error ⟨"AuthenticationError: invalid api key", false⟩
           else Except.ok "resp"

/-- Provider behaviour that fails on every attempt. -/
def alwaysFail : Nat → Except PyFailure String :=
  fun _ => Except.error ⟨"OverloadedError", true⟩

def jitterZero : Nat → ℚ := fun _ => 0

/-- Entities a then b. -/
def c8StoreAB : EStore :=
  upsert (upsert [] "a" "first_name" (PyVal.str "X")) "b" "first_name" (PyVal.str "Y")

/-- Entities b then a: same facts, other insertion order. -/
def c8StoreBA : EStore :=
  upsert (upsert [] "b" "first_name" (PyVal.str "Y")) "a" "first_name" (PyVal.str "X")

/-- A marker line whose value itself contains the marker. -/
def c9Line : List Char := "ENTITY:foo=ENTITY:bar".data

/-- The same logical call three times, with its argument map in two different
key orders. -/
def c1Inputs : List (List (String × String)) :=
  [[("city", "Boston"), ("units", "F")],
   [("units", "F"), ("city", "Boston")],
   [("city", "Boston"), ("units", "F")]]

/-- The invariant of C10: each stored record's `"id"` attribute equals its
key in the entities map. -/
def IdInv (st : EStore) : Prop :=
  ∀ e ent, lookupA st e = some ent → lookupA ent "id" = some (PyVal.str e)

theorem lookupA_updateA {α : Type} (l : List (String × α)) (k : String) (v : α) (q : String) :
    lookupA (updateA l k v) q = if k = q then some v else lookupA l q := by
  induction l with
  | nil => by_cases h : k = q <;> simp [updateA, lookupA, h]
  | cons p rest ih =>
    obtain ⟨k1, v1⟩ := p
    by_cases h1 : k1 = k
    · subst h1
      by_cases h2 : k1 = q <;> simp [updateA, lookupA, h2]
    · by_cases h2 : k1 = q
      · subst h2
        have hkq : ¬ k = k1 := fun hh => h1 hh.symm
        simp [updateA, lookupA, h1, hkq]
      · simp [updateA, lookupA, h1, h2, ih]

theorem lookupA_modifyA {α : Type} (l : List (String × α)) (k : String) (f : α → α) (q : String) :
    lookupA (modifyA l k f) q = if k = q then (lookupA l q).map f else lookupA l q := by
  induction l with
  | nil => by_cases h : k = q <;> simp [modifyA, lookupA, h]
  | cons p rest ih =>
    obtain ⟨k1, v1⟩ := p
    by_cases h1 : k1 = k
    · subst h1
      by_cases h2 : k1 = q <;> simp [modifyA, lookupA, h2]
    · by_cases h2 : k1 = q
      · subst h2
        have hkq : ¬ k = k1 := fun hh => h1 hh.symm
        simp [modifyA, lookupA, h1, hkq]
      · simp [modifyA, lookupA, h1, h2, ih]

theorem modifyA_modifyA {α : Type} (l : List (String × α)) (k : String) (f g : α → α) :
    modifyA (modifyA l k f) k g = modifyA l k (fun x => g (f x)) := by
  induction l with
  | nil => simp [modifyA]
  | cons p rest ih =>
    obtain ⟨k1, v1⟩ := p
    by_cases h1 : k1 = k <;> simp [modifyA, h1, ih]

theorem lookupA_append_of_none {α : Type} (l m : List (String × α)) (q : String)
    (h : lookupA l q = none) : lookupA (l ++ m) q = lookupA m q := by
  induction l with
  | nil => simp [lookupA]
  | cons p rest ih =>
    obtain ⟨k1, v1⟩ := p
    by_cases h1 : k1 = q
    · simp [lookupA, h1] at h
    · simp [lookupA, h1] at h ⊢
      exact ih h

theorem lookupA_append_of_some {α : Type} (l m : List (String × α)) (q : String) (v : α)
    (h : lookupA l q = some v) : lookupA (l ++ m) q = some v := by
  induction l with
  | nil => simp [lookupA] at h
  | cons p rest ih =>
    obtain ⟨k1, v1⟩ := p
    by_cases h1 : k1 = q
    · simp [lookupA, h1] at h ⊢
      exact h
    · simp [lookupA, h1] at h ⊢
      exact ih h

theorem ensureE_of_isSome (st : EStore) (e : String) (h : (lookupA st e).isSome) :
    ensureE st e = st := by
  simp [ensureE, h]

theorem lookupA_ensureE_isSome (st : EStore) (e : String) :
    (lookupA (ensureE st e) e).isSome := by
  cases hl : lookupA st e with
  | some v => simp [ensureE, hl]
  | none =>
    have h2 : lookupA (st ++ [(e, [("id", PyVal.str e)])]) e = some [("id", PyVal.str e)] := by
      rw [lookupA_append_of_none _ _ _ hl]
      simp [lookupA]
    simp [ensureE, hl, h2]

theorem upsert_upsert (st : EStore) (e k1 k2 : String) (v1 v2 : PyVal) :
    upsert (upsert st e k1 v1) e k2 v2
      = modifyA (ensureE st e) e (fun ent => updateA (updateA ent k1 v1) k2 v2) := by
  unfold upsert
  rw [ensureE_of_isSome, modifyA_modifyA]
  rw [lookupA_modifyA]
  simp [lookupA_ensureE_isSome]

theorem partFor_congr (e1 e2 : Entity) (h : ∀ q, lookupA e1 q = lookupA e2 q) :
    partFor e1 = partFor e2 :=
  funext fun k => by unfold partFor; rw [h k]

theorem renderEntity_congr (fil : Option String) (e1 e2 : Entity)
    (h : ∀ q, lookupA e1 q = lookupA e2 q) :
    renderEntity fil e1 = renderEntity fil e2 := by
  have hp := partFor_congr e1 e2 h
  unfold renderEntity filterSkip locationPart notesPart
  simp only [hp, h]

theorem mapRender_modifyA_congr (fil : Option String) (st : EStore) (e : String)
    (f g : Entity → Entity) (h : ∀ ent q, lookupA (f ent) q = lookupA (g ent) q) :
    (modifyA st e f).map (fun p => renderEntity fil p.2)
      = (modifyA st e g).map (fun p => renderEntity fil p.2) := by
  induction st with
  | nil => rfl
  | cons p rest ih =>
    obtain ⟨k1, ent1⟩ := p
    by_cases h1 : k1 = e
    · simp only [modifyA, if_pos h1, List.map_cons]
      rw [renderEntity_congr fil (f ent1) (g ent1) (h ent1)]
    · simp only [modifyA, if_neg h1, List.map_cons]
      rw [ih]

theorem asPromptContext_modifyA_congr (fil : Option String) (st : EStore) (e : String)
    (f g : Entity → Entity) (h : ∀ ent q, lookupA (f ent) q = lookupA (g ent) q) :
    asPromptContext (modifyA st e f) fil = asPromptContext (modifyA st e g) fil := by
  unfold asPromptContext
  rw [mapRender_modifyA_congr fil st e f g h]

theorem lookupA_double_update_swap {α : Type} (ent : List (String × α)) (k1 k2 : String)
    (v1 v2 : α) (hne : k1 ≠ k2) (q : String) :
    lookupA (updateA (updateA ent k1 v1) k2 v2) q
      = lookupA (updateA (updateA ent k2 v2) k1 v1) q := by
  rw [lookupA_updateA, lookupA_updateA, lookupA_updateA, lookupA_updateA]
  by_cases h1 : k1 = q
  · by_cases h2 : k2 = q
    · exact absurd (h1.trans h2.symm) hne
    · simp [h1, h2]
  · by_cases h2 : k2 = q <;> simp [h1, h2]

/-- C8: corrected.  The order in which distinct attributes of one entity are
upserted does not change `as_prompt_context` (the rendering reads a fixed key
list), for any store, entity, values and filter — but the order in which
distinct entities are first inserted does change the output (see the
counterexample), because Python dicts iterate in insertion order. -/
theorem claim_C8_amended (st : EStore) (e k1 k2 : String) (v1 v2 : PyVal)
    (fil : Option String) (hne : k1 ≠ k2) :
    asPromptContext (upsert (upsert st e k1 v1) e k2 v2) fil
      = asPromptContext (upsert (upsert st e k2 v2) e k1 v1) fil := by
  rw [upsert_upsert, upsert_upsert]
  exact asPromptContext_modifyA_congr fil (ensureE st e) e _ _
    (fun ent q => lookupA_double_update_swap ent k1 k2 v1 v2 hne q)

/-- C8 witness: a concrete instance of the amended claim. -/
theorem claim_C8_amended_witness :
    "last_name" ≠ "department"
    ∧ asPromptContext
        (upsert (upsert [] "brian1" "last_name" (PyVal.str "Tang")) "brian1" "department"
          (PyVal.str "Eng")) none
      = asPromptContext
        (upsert (upsert [] "brian1" "department" (PyVal.str "Eng")) "brian1" "last_name"
          (PyVal.str "Tang")) none :=
  ⟨by decide,
   claim_C8_amended [] "brian1" "last_name" "department" (PyVal.str "Tang") (PyVal.str "Eng")
     none (by decide)⟩

/-- C8 counterexample: the same attribute set inserted in two different
entity orders renders differently, so `as_prompt_context` is not a function
of the attribute set alone. -/
theorem claim_C8_counterexample :
    asPromptContext c8StoreAB none ≠ asPromptContext c8StoreBA none := by decide

/-- C5 counterexample: on an empty store `as_prompt_context` returns the
header line — a non-empty string — and the injection guard of
`chat_with_memory` (truthiness of that string) therefore inserts a context
turn consisting of the header alone. -/
theorem claim_C5_counterexample :
    asPromptContext [] none ≠ ""
    ∧ assembleMessages [] []
      = [⟨"user", MsgContent.text "Known entities (use id or notes for disambiguation):"⟩] := by
  constructor
  · decide
  · rfl

/-- C5: corrected.  When the entity store is empty,
`as_prompt_context` returns exactly the header line (non-empty), so the
controller inserts a context turn holding just that header in front of any
message list; the stocks variant's `to_text` does return the empty string on
an empty store (but is embedded into the system prompt unconditionally). -/
theorem claim_C5_amended :
    asPromptContext [] none = "Known entities (use id or notes for disambiguation):"
    ∧ (∀ msgs : List Turn,
        assembleMessages msgs []
          = ⟨"user", MsgContent.text "Known entities (use id or notes for disambiguation):"⟩
              :: msgs)
    ∧ sToText [] = "" := by
  refine ⟨rfl, fun msgs => ?_, rfl⟩
  unfold assembleMessages
  rw [if_pos (by decide : asPromptContext [] none ≠ "")]
  rfl

theorem idInv_nil : IdInv [] := by
  intro e ent h
  simp [lookupA] at h

theorem idInv_ensureE (st : EStore) (e : String) (h : IdInv st) : IdInv (ensureE st e) := by
  intro e1 ent1 hl
  unfold ensureE at hl
  by_cases hs : (lookupA st e).isSome
  · rw [if_pos hs] at hl
    exact h e1 ent1 hl
  · rw [if_neg hs] at hl
    cases hq : lookupA st e1 with
    | some v =>
      rw [lookupA_append_of_some _ _ _ _ hq] at hl
      cases hl
      exact h e1 _ hq
    | none =>
      rw [lookupA_append_of_none _ _ _ hq] at hl
      by_cases he : e = e1
      · subst he
        simp [lookupA] at hl
        subst hl
        simp [lookupA]
      · simp [lookupA, he] at hl

theorem idInv_upsert (st : EStore) (e k : String) (v : PyVal) (h : IdInv st) (hk : k ≠ "id") :
    IdInv (upsert st e k v) := by
  intro e1 ent1 hl
  unfold upsert at hl
  rw [lookupA_modifyA] at hl
  by_cases he : e = e1
  · rw [if_pos he] at hl
    cases hq : lookupA (ensureE st e) e1 with
    | none => rw [hq] at hl; simp at hl
    | some ent0 =>
      rw [hq] at hl
      simp at hl
      subst hl
      rw [lookupA_updateA, if_neg hk]
      exact idInv_ensureE st e h e1 ent0 hq
  · rw [if_neg he] at hl
    exact idInv_ensureE st e h e1 ent1 hl

theorem idInv_addNote (st : EStore) (e n : String) (h : IdInv st) : IdInv (addNote st e n) := by
  intro e1 ent1 hl
  unfold addNote at hl
  cases hs : lookupA st e with
  | none =>
    rw [hs] at hl
    cases hq : lookupA st e1 with
    | some v =>
      rw [lookupA_append_of_some _ _ _ _ hq] at hl
      cases hl
      exact h e1 _ hq
    | none =>
      rw [lookupA_append_of_none _ _ _ hq] at hl
      by_cases he : e = e1
      · subst he
        simp [lookupA] at hl
        subst hl
        simp [lookupA]
      · simp [lookupA, he] at hl
  | some ent0 =>
    rw [hs] at hl
    rw [lookupA_modifyA] at hl
    by_cases he : e = e1
    · rw [if_pos he] at hl
      cases hq : lookupA st e1 with
      | none => rw [hq] at hl; simp at hl
      | some entx =>
        rw [hq] at hl
        simp at hl
        subst hl
        have hid := h e1 entx hq
        cases hnote : lookupA entx "notes" with
        | none =>
          simp only [hnote]
          rw [lookupA_updateA, if_neg (by decide : "notes" ≠ "id")]
          exact hid
        | some nv =>
          cases nv with
          | str s => simp only [hnote]; exact hid
          | dict d => simp only [hnote]; exact hid
          | list ns =>
            simp only [hnote]
            rw [lookupA_updateA, if_neg (by decide : "notes" ≠ "id")]
            exact hid
    · rw [if_neg he] at hl
      exact h e1 ent1 hl

theorem idInv_hydrate (data : List Entity) : ∀ st st2 : EStore, IdInv st →
    hydrateFromData st data = some st2 → IdInv st2 := by
  induction data with
  | nil =>
    intro st st2 h hl
    unfold hydrateFromData at hl
    cases hl
    exact h
  | cons record rest ih =>
    intro st st2 h hl
    unfold hydrateFromData at hl
    split at hl
    · rename_i i hid
      refine ih _ _ ?_ hl
      intro e1 ent1 hq
      rw [lookupA_updateA] at hq
      by_cases he : i = e1
      · rw [if_pos he] at hq
        cases hq
        exact he ▸ hid
      · rw [if_neg he] at hq
        exact h e1 ent1 hq
    · cases hl

/-- C10: corrected.  The id invariant holds for the empty store, is
preserved by `add_note` for all inputs and by `hydrate_from_data` whenever it
succeeds (every record carries a string `"id"` field), and is preserved by
`upsert` for every key other than `"id"` — but not for all inputs:
`upsert(e, "id", v)` with `v ≠ e` overwrites the `"id"` attribute (see the
counterexample). -/
theorem claim_C10_amended :
    IdInv ([] : EStore)
    ∧ (∀ (st : EStore) (e k : String) (v : PyVal), IdInv st → k ≠ "id" → IdInv (upsert st e k v))
    ∧ (∀ (st : EStore) (e n : String), IdInv st → IdInv (addNote st e n))
    ∧ (∀ (data : List Entity) (st st2 : EStore), IdInv st →
        hydrateFromData st data = some st2 → IdInv st2) :=
  ⟨idInv_nil,
   fun st e k v h hk => idInv_upsert st e k v h hk,
   fun st e n h => idInv_addNote st e n h,
   fun data st st2 h hl => idInv_hydrate data st st2 h hl⟩

/-- C10 witness: the invariant after an ordinary upsert followed by a note. -/
theorem claim_C10_amended_witness :
    IdInv (addNote (upsert [] "brian1" "first_name" (PyVal.str "Brian")) "brian1"
      "lives in boston") :=
  claim_C10_amended.2.2.1
    (upsert [] "brian1" "first_name" (PyVal.str "Brian")) "brian1" "lives in boston"
    (claim_C10_amended.2.1 [] "brian1" "first_name" (PyVal.str "Brian")
      claim_C10_amended.1 (by decide))

/-- C10 counterexample: `upsert` with key `"id"` breaks the invariant, so it
is not preserved for all inputs as claimed. -/
theorem claim_C10_counterexample :
    ¬ IdInv (upsert [] "e" "id" (PyVal.str "x")) := by
  intro h
  have h2 : lookupA (upsert [] "e" "id" (PyVal.str "x")) "e" = some [("id", PyVal.str "x")] := by
    rfl
  have h3 : some (PyVal.str "x") = some (PyVal.str "e") := h "e" [("id", PyVal.str "x")] h2
  injection h3 with h4
  injection h4 with h5
  exact absurd h5 (by decide)

theorem readRef_applyOp_ne_zero (m : ConvMem) (op : ConvOp) (r : Nat) (hr : r ≠ 0) :
    readRef (applyOp m op) r = readRef m r := by
  have hset : ∀ f : List Turn → List Turn, readRef (writeCell0 m f) r = readRef m r := by
    intro f
    unfold readRef writeCell0
    exact List.getElem?_set_ne (fun hh => hr hh.symm)
  cases op with
  | user c => exact hset _
  | assistant c => exact hset _
  | toolResult i res => exact hset _

theorem readRef_applyOps_ne_zero (ops : List ConvOp) : ∀ (m : ConvMem) (r : Nat), r ≠ 0 →
    readRef (applyOps ops m) r = readRef m r := by
  induction ops with
  | nil => intro m r _; rfl
  | cons op rest ih =>
    intro m r hr
    have hstep : applyOps (op :: rest) m = applyOps rest (applyOp m op) := rfl
    rw [hstep, ih (applyOp m op) r hr]
    exact readRef_applyOp_ne_zero m op r hr

/-- C6: confirmed.  In the heap model, the reference returned by
`get_messages()` points at a fresh copy: any sequence of later
`add_user_message` / `add_assistant_message` / `add_tool_result` appends
(which all write the store's own cell) leaves the returned cell unchanged,
and it holds the messages as they were at call time. -/
theorem claim_C6_copy_isolation (m : ConvMem) (ops : List ConvOp) (h : 0 < m.heap.length) :
    readRef (applyOps ops (getMessages m).2) (getMessages m).1
        = readRef (getMessages m).2 (getMessages m).1
    ∧ readRef (getMessages m).2 (getMessages m).1 = some (cell0 m) := by
  have hr : m.heap.length ≠ 0 := Nat.pos_iff_ne_zero.mp h
  constructor
  · exact readRef_applyOps_ne_zero ops _ _ hr
  · unfold getMessages readRef
    exact List.getElem?_concat_length m.heap (cell0 m)

/-- C6 witness: a concrete store, snapshot and append sequence. -/
theorem claim_C6_copy_isolation_witness :
    readRef (applyOps c6Ops (getMessages c6Mem).2) (getMessages c6Mem).1 = some (cell0 c6Mem) :=
  ((claim_C6_copy_isolation c6Mem c6Ops (by decide)).1).trans
    ((claim_C6_copy_isolation c6Mem c6Ops (by decide)).2)

/-- C2: the code contradicts the claim.  With the configured maximum set to
1 and a provider that keeps using tools, the stocks/simplest loop makes 3
provider calls and is still live (its `iteration` counter is never
incremented), and the memory-variant loop also makes 3 calls because line
160 overwrites the configured parameter with 30. -/
theorem claim_C2_iteration_bound_broken :
    (runStocksLoop 1 c2Script 0).1 = 3
    ∧ (runStocksLoop 1 c2Script 0).2 = none
    ∧ (runMemoryLoop 1 (fun _ => "") c2Script 0).1 = 3 := by
  refine ⟨?_, ?_, ?_⟩ <;> rfl

/-- C3: the code contradicts the claim.  When tool execution raises, the
loop of simple-client.py appends the `tool_use` turn but `continue`s without
appending any `tool_result`, so the tool_use id has one use turn and zero
result turns before the next provider call. -/
theorem claim_C3_error_path_drops_result :
    countToolUsesFor "toolu_01" (processBlocksSC boomExec c3Resp [] false).1 = 1
    ∧ countToolResultsFor "toolu_01" (processBlocksSC boomExec c3Resp [] false).1 = 0 := by
  refine ⟨?_, ?_⟩ <;> rfl

/-- C4: the code contradicts the claim.  On a tool execution error,
simple-client.py swallows the exception (no propagation, the loop moves on
to the next block) but converts nothing into a `tool_result` turn: the full
output for a failing call followed by a text block holds only the
`tool_use` turn and the text turn, and no turn carries any tool result. -/
theorem claim_C4_error_not_converted :
    (processBlocksSC boomExec c4Resp [] false).1
      = [⟨"assistant", MsgContent.blocks
            [Block.toolUse "toolu_01" "get_weather_from_city" [("city", "Boston")]]⟩,
         ⟨"assistant", MsgContent.blocks [Block.text "thanks"]⟩]
    ∧ ((processBlocksSC boomExec c4Resp [] false).1.all fun tn => !isToolResultFor "toolu_01" tn)
        = true := by
  refine ⟨?_, ?_⟩ <;> rfl

theorem callWithRetriesGo_attempts_le {α : Type} (outcomes : Nat → Except PyFailure α)
    (jitter : Nat → ℚ) : ∀ r a : Nat, (callWithRetriesGo outcomes jitter a r).2.1 ≤ r := by
  intro r
  induction r with
  | zero => intro a; simp [callWithRetriesGo]
  | succ n ih =>
    intro a
    unfold callWithRetriesGo
    cases ho : outcomes a with
    | ok x => simp
    | error f =>
      simp only []
      have := ih (a + 1)
      omega

theorem callWithRetriesGo_all_fail {α : Type} (outcomes : Nat → Except PyFailure α)
    (jitter : Nat → ℚ) : ∀ r a : Nat, (∀ i, i < a + r → ∃ f, outcomes i = Except.error f) →
    callWithRetriesGo outcomes jitter a r
      = (RetryResult.runtimeError "Claude API call failed after max retries", r,
         (List.range r).map fun j => (1 : ℚ) * 2 ^ (a + j) + jitter (a + j)) := by
  intro r
  induction r with
  | zero => intro a _; rfl
  | succ n ih =>
    intro a h
    obtain ⟨f, hf⟩ := h a (by omega)
    unfold callWithRetriesGo
    rw [hf]
    have hrec := ih (a + 1) (fun i hi => h i (by omega))
    simp only [hrec]
    have harg : ∀ j : Nat, a + Nat.succ j = a + 1 + j := fun j => by omega
    have hw : ((fun j => (1 : ℚ) * 2 ^ (a + j) + jitter (a + j)) ∘ Nat.succ)
        = fun j => (1 : ℚ) * 2 ^ (a + 1 + j) + jitter (a + 1 + j) := by
      funext j
      simp only [Function.comp_apply]
      rw [harg j]
    rw [List.range_succ_eq_map, List.map_cons, List.map_map, hw]
    simp

theorem runToolWithRetriesGo_attempts_le (outcomes : Nat → Except PyFailure String)
    (jitter : Nat → ℚ) : ∀ r a : Nat, (runToolWithRetriesGo outcomes jitter a r).2.1 ≤ r := by
  intro r
  induction r with
  | zero => intro a; simp [runToolWithRetriesGo]
  | succ n ih =>
    intro a
    unfold runToolWithRetriesGo
    cases ho : outcomes a with
    | ok x => simp
    | error f =>
      simp only []
      have := ih (a + 1)
      omega

theorem runToolWithRetriesGo_all_fail (outcomes : Nat → Except PyFailure String)
    (jitter : Nat → ℚ) : ∀ r a : Nat, (∀ i, i < a + r → ∃ f, outcomes i = Except.error f) →
    runToolWithRetriesGo outcomes jitter a r
      = ("error", r, (List.range r).map fun j => (1 / 2 : ℚ) * 2 ^ (a + j) + jitter (a + j)) := by
  intro r
  induction r with
  | zero => intro a _; rfl
  | succ n ih =>
    intro a h
    obtain ⟨f, hf⟩ := h a (by omega)
    unfold runToolWithRetriesGo
    rw [hf]
    have hrec := ih (a + 1) (fun i hi => h i (by omega))
    simp only [hrec]
    have harg : ∀ j : Nat, a + Nat.succ j = a + 1 + j := fun j => by omega
    have hw : ((fun j => (1 / 2 : ℚ) * 2 ^ (a + j) + jitter (a + j)) ∘ Nat.succ)
        = fun j => (1 / 2 : ℚ) * 2 ^ (a + 1 + j) + jitter (a + 1 + j) := by
      funext j
      simp only [Function.comp_apply]
      rw [harg j]
    rw [List.range_succ_eq_map, List.map_cons, List.map_map, hw]
    simp

/-- C7: corrected.  Both wrappers are bounded (at most 5 provider attempts,
3 tool attempts) and their backoff is `base_delay * 2 ^ attempt + jitter`
(base 1 and 1/2); but they retry every exception regardless of class (see
the counterexample), and only the provider wrapper surfaces a typed failure
(`RuntimeError`) after exhaustion — the tool wrapper instead returns the
plain string "error" as an ordinary value. -/
theorem claim_C7_amended :
    (∀ (α : Type) (outcomes : Nat → Except PyFailure α) (jitter : Nat → ℚ),
      (callWithRetries outcomes jitter).2.1 ≤ 5)
    ∧ (∀ (α : Type) (outcomes : Nat → Except PyFailure α) (jitter : Nat → ℚ),
        (∀ i, i < 5 → ∃ f, outcomes i = Except.error f) →
        callWithRetries outcomes jitter
          = (RetryResult.runtimeError "Claude API call failed after max retries", 5,
             (List.range 5).map fun j => (1 : ℚ) * 2 ^ j + jitter j))
    ∧ (∀ (outcomes : Nat → Except PyFailure String) (jitter : Nat → ℚ),
        (runToolWithRetries outcomes jitter).2.1 ≤ 3)
    ∧ (∀ (outcomes : Nat → Except PyFailure String) (jitter : Nat → ℚ),
        (∀ i, i < 3 → ∃ f, outcomes i = Except.error f) →
        runToolWithRetries outcomes jitter
          = ("error", 3, (List.range 3).map fun j => (1 / 2 : ℚ) * 2 ^ j + jitter j)) := by
  refine ⟨?_, ?_, ?_, ?_⟩
  · intro α outcomes jitter
    exact callWithRetriesGo_attempts_le outcomes jitter 5 0
  · intro α outcomes jitter h
    have := callWithRetriesGo_all_fail outcomes jitter 5 0 (fun i hi => h i (by omega))
    simpa [callWithRetries] using this
  · intro outcomes jitter
    exact runToolWithRetriesGo_attempts_le outcomes jitter 3 0
  · intro outcomes jitter h
    have := runToolWithRetriesGo_all_fail outcomes jitter 3 0 (fun i hi => h i (by omega))
    simpa [runToolWithRetries] using this

/-- C7 witness: a concrete always-failing provider exhausts exactly 5
attempts with the geometric backoff schedule. -/
theorem claim_C7_amended_witness :
    callWithRetries alwaysFail jitterZero
      = (RetryResult.runtimeError "Claude API call failed after max retries", 5,
         (List.range 5).map fun j => (1 : ℚ) * 2 ^ j + jitterZero j) :=
  claim_C7_amended.2.1 String alwaysFail jitterZero (fun i _ =>
    ⟨⟨"OverloadedError", true⟩, rfl⟩)

/-- C7 counterexample: the wrappers do not retry only transient-class
failures — after a non-transient failure on attempt 0 a second attempt is
still made, because the source's bare `except Exception` catches
everything. -/
theorem claim_C7_counterexample :
    fatalThenOk 0 = Except.error ⟨"AuthenticationError: invalid api key", false⟩
    ∧ (callWithRetries fatalThenOk jitterZero).1 = RetryResult.ok "resp"
    ∧ (callWithRetries fatalThenOk jitterZero).2.1 = 2 := by
  refine ⟨rfl, ?_, ?_⟩ <;> rfl

theorem removeMarker_of_not_contains (l : List Char) (h : containsMarker l = false) :
    removeMarker l = l := by
  induction l using removeMarker.induct with
  | case1 rest => rw [containsMarker.eq_1] at h; cases h
  | case2 c cs hne ih =>
    rw [containsMarker.eq_2 c cs hne] at h
    rw [removeMarker.eq_2 c cs hne, ih h]
  | case3 => rfl

theorem splitFirstEq_append (k v : List Char) (hk : '=' ∉ k) :
    splitFirstEq (k ++ '=' :: v) = some (k, v) := by
  induction k with
  | nil => simp [splitFirstEq]
  | cons c cs ih =>
    have hc : ¬ c = '=' := fun hh => hk (hh ▸ List.mem_cons_self c cs)
    have hcs : '=' ∉ cs := fun hh => hk (List.mem_cons_of_mem c hh)
    simp [splitFirstEq, hc, ih hcs]

/-- C9: corrected.  A line starting with the marker is processed by deleting
every occurrence of `"ENTITY:"` from the whole line (Python's
`line.replace`), then splitting at the first `'='` with both halves
stripped and upserted; when the key and value contain no further marker
occurrence (and the key no `'='`) this coincides with parsing
`ENTITY:key=value` as written.  Lines not starting with the marker, or with
no `'='` left after deletion, cause no store update and no error. -/
theorem claim_C9_amended :
    (∀ (st : SEStore) (k v : List Char), containsMarker (k ++ '=' :: v) = false → '=' ∉ k →
      scanLine st (markerChars ++ k ++ '=' :: v)
        = sUpdate st (strOf (pyStrip k)) (strOf (pyStrip v)))
    ∧ (∀ (st : SEStore) (line : List Char), startsWithMarker line = false →
        scanLine st line = st)
    ∧ (∀ (st : SEStore) (line : List Char), splitFirstEq (removeMarker line) = none →
        scanLine st line = st) := by
  refine ⟨?_, ?_, ?_⟩
  · intro st k v hnm hk
    have h1 : startsWithMarker (markerChars ++ k ++ '=' :: v) = true := rfl
    have h2 : removeMarker (markerChars ++ k ++ '=' :: v) = removeMarker (k ++ '=' :: v) := rfl
    unfold scanLine
    rw [h1, if_pos rfl, h2, removeMarker_of_not_contains _ hnm, splitFirstEq_append k v hk]
  · intro st line h
    unfold scanLine
    rw [h, if_neg (by simp)]
  · intro st line h
    unfold scanLine
    by_cases hs : startsWithMarker line = true
    · rw [hs, if_pos rfl, h]
    · rw [if_neg hs]

/-- C9 witness: a well-formed marker line is stored with key and value
trimmed. -/
theorem claim_C9_amended_witness :
    containsMarker ("last_price".data ++ '=' :: " 203.33 ".data) = false
    ∧ '=' ∉ "last_price".data
    ∧ scanLine [] (markerChars ++ "last_price".data ++ '=' :: " 203.33 ".data)
        = sUpdate [] (strOf (pyStrip "last_price".data)) (strOf (pyStrip " 203.33 ".data)) :=
  ⟨by decide, by decide,
   claim_C9_amended.1 [] "last_price".data " 203.33 ".data (by decide) (by decide)⟩

/-- C9 counterexample: on `"ENTITY:foo=ENTITY:bar"` the code stores the
value `"bar"` — `replace` deleted the marker inside the value — while the
claim's parse (strip the marker once, split at the first `'='`, trim) yields
`"ENTITY:bar"`; so the two disagree. -/
theorem claim_C9_counterexample :
    scanLine [] c9Line = [("foo", "bar")]
    ∧ claimParseLine [] c9Line = [("foo", "ENTITY:bar")]
    ∧ scanLine [] c9Line ≠ claimParseLine [] c9Line := by
  refine ⟨?_, ?_, ?_⟩ <;> decide

theorem bumpCount_single (K : String) (c : Nat) : bumpCount [(K, c)] K = (c + 1, [(K, c + 1)]) := by
  simp [bumpCount, lookupA, updateA]

theorem processGuardBlocks_single (t : Nat) (name : String) (inp : List (String × String))
    (K : String) (c : Nat) (hk : canonicalKey name inp = K) :
    processGuardBlocks t [RespBlock.toolUse "toolu_1" name inp] [(K, c)]
      = if t < c + 1 then (0, [(K, c + 1)], true) else (1, [(K, c + 1)], false) := by
  by_cases hc : t < c + 1 <;>
    simp [processGuardBlocks, hk, bumpCount_single, hc]

theorem runGuardLoop_same_key (t : Nat) (name K : String) :
    ∀ (inputs : List (List (String × String))) (c : Nat), inputs ≠ [] →
      (∀ inp ∈ inputs, canonicalKey name inp = K) →
      c + inputs.length = t + 1 →
      runGuardLoop t (mkGuardScript name inputs) [(K, c)]
        = (inputs.length, inputs.length - 1, some TermReason.repeatedCallDetected) := by
  intro inputs
  induction inputs with
  | nil => intro c hne _ _; exact absurd rfl hne
  | cons inp rest ih =>
    intro c _ hkey hlen
    have hk : canonicalKey name inp = K := hkey inp (by simp)
    have hpb := processGuardBlocks_single t name inp K c hk
    cases rest with
    | nil =>
      have hc : t < c + 1 := by simp at hlen; omega
      rw [if_pos hc] at hpb
      have hsplit : mkGuardScript name [inp]
          = (⟨[RespBlock.toolUse "toolu_1" name inp], "tool_use"⟩ : SResponse)
            :: mkGuardScript name [] := rfl
      rw [hsplit, runGuardLoop.eq_2]
      dsimp only
      rw [hpb]
      simp
    | cons inp2 rest2 =>
      have hnotrip : ¬ t < c + 1 := by simp at hlen; omega
      rw [if_neg hnotrip] at hpb
      have hrec := ih (c + 1) (by simp)
        (fun i hi => hkey i (List.mem_cons_of_mem inp hi))
        (by simp at hlen ⊢; omega)
      have hsplit : mkGuardScript name (inp :: inp2 :: rest2)
          = (⟨[RespBlock.toolUse "toolu_1" name inp], "tool_use"⟩ : SResponse)
            :: mkGuardScript name (inp2 :: rest2) := rfl
      rw [hsplit, runGuardLoop.eq_2]
      dsimp only
      rw [hpb]
      dsimp only
      rw [if_neg (by simp : ¬ false = true)]
      rw [if_neg (by simp : ¬ (("tool_use" : String) = "end_turn" ∧ (1 : Nat) = 0))]
      rw [hrec]
      simp only [List.length_cons, Prod.mk.injEq, Option.some.inj]
      exact ⟨trivial, by omega, trivial⟩

theorem bumpCount_nil (K : String) : bumpCount [] K = (1, [(K, 1)]) := rfl

theorem processGuardBlocks_first (t : Nat) (name : String) (inp : List (String × String))
    (K : String) (hk : canonicalKey name inp = K) :
    processGuardBlocks t [RespBlock.toolUse "toolu_1" name inp] []
      = if t < 1 then (0, [(K, 1)], true) else (1, [(K, 1)], false) := by
  by_cases hc : t < 1 <;> simp [processGuardBlocks, hk, bumpCount_nil, hc]

/-- C1: confirmed against the spec-modelled repeat guard (the guard is
absent from src/; medium-client.py only declares its counter).  When every
iteration issues the same logical call — same tool name, argument maps equal
up to key order, i.e. equal `ToolCallKey`s — and the script is threshold+1
iterations long, the loop dispatches the first threshold occurrences
normally and terminates with `REPEATED_CALL_DETECTED` on exactly iteration
threshold+1: the provider is called exactly threshold+1 times and the tool
executed exactly threshold times, so the trip happens neither earlier nor
later. -/
theorem claim_C1_repeat_guard (t : Nat) (name K : String)
    (inputs : List (List (String × String)))
    (hlen : inputs.length = t + 1)
    (hkey : ∀ inp ∈ inputs, canonicalKey name inp = K) :
    runGuardLoop t (mkGuardScript name inputs) []
      = (t + 1, t, some TermReason.repeatedCallDetected) := by
  cases inputs with
  | nil => simp at hlen
  | cons inp rest =>
    have hk : canonicalKey name inp = K := hkey inp (by simp)
    have hpb := processGuardBlocks_first t name inp K hk
    have hsplit : mkGuardScript name (inp :: rest)
        = (⟨[RespBlock.toolUse "toolu_1" name inp], "tool_use"⟩ : SResponse)
          :: mkGuardScript name rest := rfl
    cases rest with
    | nil =>
      have ht : t = 0 := by simp at hlen; omega
      subst ht
      rw [if_pos (by omega : (0 : Nat) < 1)] at hpb
      rw [hsplit, runGuardLoop.eq_2]
      dsimp only
      rw [hpb]
      simp
    | cons inp2 rest2 =>
      have ht : ¬ t < 1 := by simp at hlen; omega
      rw [if_neg ht] at hpb
      have hrec := runGuardLoop_same_key t name K (inp2 :: rest2) 1 (by simp)
        (fun i hi => hkey i (List.mem_cons_of_mem inp hi))
        (by simp at hlen ⊢; omega)
      rw [hsplit, runGuardLoop.eq_2]
      dsimp only
      rw [hpb]
      dsimp only
      rw [if_neg (by simp : ¬ false = true)]
      rw [if_neg (by simp : ¬ (("tool_use" : String) = "end_turn" ∧ (1 : Nat) = 0))]
      rw [hrec]
      simp only [List.length_cons, Prod.mk.injEq, Option.some.inj]
      refine ⟨by simp at hlen; omega, by simp at hlen; omega, trivial⟩

/-- C1 witness: threshold 2 and three occurrences of the same call, the
middle one with its argument map in the opposite key order; dispatch is
skipped and the loop stops with `REPEATED_CALL_DETECTED` exactly on the
third iteration. -/
theorem claim_C1_repeat_guard_witness :
    c1Inputs.length = 2 + 1
    ∧ (∀ inp ∈ c1Inputs,
        canonicalKey "get_weather" inp
          = canonicalKey "get_weather" [("city", "Boston"), ("units", "F")])
    ∧ runGuardLoop 2 (mkGuardScript "get_weather" c1Inputs) []
        = (2 + 1, 2, some TermReason.repeatedCallDetected) := by
  refine ⟨rfl, ?_, ?_⟩
  · intro inp h
    simp only [c1Inputs] at h
    fin_cases h <;> rfl
  · exact claim_C1_repeat_guard 2 "get_weather"
      (canonicalKey "get_weather" [("city", "Boston"), ("units", "F")]) c1Inputs rfl
      (by intro inp h; simp only [c1Inputs] at h; fin_cases h <;> rfl)
